import Mathlib

/-
  Verification development for the LemLib tracking-wheel odometry estimator
  (src/include/lemlib/tracking/TrackingWheelOdom.hpp).

  The repository ships only the header: the bodies of TrackingWheel's
  constructor, TrackingWheelOdometry::calibrate, ::getPose, ::setPose and
  ::update are declared but not present under src/.  Every definition below
  whose doc comment starts with "Modelled from the spec:" embeds the missing
  body faithfully from the specification's words (spec.md sections 4.1-4.4);
  lengths and angles are modelled as rationals, and trigonometric functions
  appear as explicit function parameters (sn for sine, cs for cosine) so that
  the development stays executable on concrete inputs.
-/

namespace LemLib

/-- A tracking wheel, mirroring struct TrackingWheel of the header: a
non-owning encoder reference (modelled as an identifier), a wheel diameter
and a signed offset from the turning center.  All three members are declared
const in the header. -/
structure TrackingWheel where
  encoder : Nat
  diameter : ℚ
  offset : ℚ
deriving DecidableEq

/-- Modelled from the spec: the body of TrackingWheel's constructor is not
under src/ (the header only declares it).  Spec 4.1 and 7: construction
validates diameter > 0 and fails with an invalid-configuration error
otherwise, modelled as an Option-returning smart constructor. -/
def TrackingWheel.create (encoder : Nat) (diameter offset : ℚ) : Option TrackingWheel :=
  if 0 < diameter then some { encoder := encoder, diameter := diameter, offset := offset }
  else none

/-- Outcome of one inertial sensor's calibration attempt, spec 4.2 step 2:
success on the first try, success only after the single retry, or failure
even after the retry (the sensor is then excluded). -/
inductive ImuOutcome where
  | ok
  | okAfterRetry
  | failed
deriving DecidableEq

/-- A configured tracking wheel together with whether its encoder
initialization succeeded during calibration, spec 4.2 step 1. -/
structure WheelSetup where
  wheel : TrackingWheel
  initOk : Bool
deriving DecidableEq

/-- The sensor configuration a calibration attempt operates on: the outcomes
of the configured inertial sensors and the configured vertical and
horizontal tracking wheels with their initialization outcomes. -/
structure OdomConfig where
  imus : List ImuOutcome
  verticalWheels : List WheelSetup
  horizontalWheels : List WheelSetup
deriving DecidableEq

/-- The wheels on one axis that survived initialization: a wheel that fails
to initialize is excluded from the active configuration (spec 4.2 step 1). -/
def activeWheels (ws : List WheelSetup) : List TrackingWheel :=
  (ws.filter fun w => w.initOk).map fun w => w.wheel

/-- Number of inertial sensors that calibrated successfully (first try or
after the retry), spec 4.2 step 2. -/
def imuCalibratedCount (l : List ImuOutcome) : Nat :=
  (l.filter fun o => decide (o ≠ ImuOutcome.failed)).length

/-- The first wheel in the list whose offset differs from the offset of w,
used to choose a horizontal-wheel pair whose offsets differ (spec 4.2 step
3b). -/
def firstDiffering (w : TrackingWheel) : List TrackingWheel → Option TrackingWheel
  | [] => none
  | v :: vs => if v.offset ≠ w.offset then some v else firstDiffering w vs

/-- A pair of wheels from the list with differing offsets, when one exists:
the candidate pair for horizontal-differential heading (spec 4.2 step 3b,
"their offsets must differ"). -/
def pickDifferingPair : List TrackingWheel → Option (TrackingWheel × TrackingWheel)
  | [] => none
  | w :: ws =>
    match firstDiffering w ws with
    | some v => some (w, v)
    | none => pickDifferingPair ws

/-- The heading-delta provider selected by calibration, spec 4.2 step 3:
average of the successfully calibrated inertial sensors, a differential
horizontal-wheel pair, or untrackable (heading delta treated as zero). -/
inductive HeadingSource where
  | imuAverage (count : Nat)
  | horizontalPair (a b : TrackingWheel)
  | untrackable
deriving DecidableEq

/-- Modelled from the spec: the heading-source selection ladder inside
TrackingWheelOdometry::calibrate, whose body is not under src/.  Spec 4.2
step 3, fixed precedence: (a) at least one calibrated inertial sensor wins;
(b) else a pair of active horizontal wheels with differing offsets; (c) else
heading is untrackable. -/
def selectHeadingSource (cfg : OdomConfig) : HeadingSource :=
  if 0 < imuCalibratedCount cfg.imus then
    HeadingSource.imuAverage (imuCalibratedCount cfg.imus)
  else
    match pickDifferingPair (activeWheels cfg.horizontalWheels) with
    | some (a, b) => HeadingSource.horizontalPair a b
    | none => HeadingSource.untrackable

/-- Modelled from the spec: severity contribution of spec 4.2 step 1 for one
axis.  A wheel that fails to initialize while a redundant wheel on the same
axis remains active mirrors code 2's substitute/excluded-sensor case; a
fully untrackable axis is charged by the axis-trackability step instead. -/
def wheelStepSeverity (ws : List WheelSetup) : Nat :=
  if (∃ w ∈ ws, w.initOk = false) ∧ activeWheels ws ≠ [] then 2 else 0

/-- Modelled from the spec: severity contribution of spec 4.2 step 2.  An
inertial sensor whose retry succeeded records at least severity 1. -/
def imuStepSeverity (l : List ImuOutcome) : Nat :=
  if ImuOutcome.okAfterRetry ∈ l then 1 else 0

/-- Modelled from the spec: severity contribution of spec 4.2 step 3.  Branch
a records 2 when at least one configured inertial sensor had to be excluded,
branch b records 3, branch c records 5. -/
def headingStepSeverity (cfg : OdomConfig) : Nat :=
  match selectHeadingSource cfg with
  | HeadingSource.imuAverage _ => if ImuOutcome.failed ∈ cfg.imus then 2 else 0
  | HeadingSource.horizontalPair _ _ => 3
  | HeadingSource.untrackable => 5

/-- Modelled from the spec: severity contribution of spec 4.2 step 4 for one
axis: an axis with no active wheels raises severity to at least 4. -/
def axisStepSeverity (ws : List WheelSetup) : Nat :=
  if activeWheels ws = [] then 4 else 0

/-- The severities recorded by the calibration steps of spec 4.2, in order:
wheel initialization per axis (step 1), inertial-sensor retries (step 2),
heading-source selection (step 3), axis trackability per axis (step 4). -/
def stepSeverities (cfg : OdomConfig) : List Nat :=
  [wheelStepSeverity cfg.verticalWheels,
   wheelStepSeverity cfg.horizontalWheels,
   imuStepSeverity cfg.imus,
   headingStepSeverity cfg,
   axisStepSeverity cfg.verticalWheels,
   axisStepSeverity cfg.horizontalWheels]

/-- Modelled from the spec: the severity code returned by
TrackingWheelOdometry::calibrate, whose body is not under src/.  Spec 4.2
step 5: the final severity is the maximum severity encountered across steps
1-4, and 0 if no issues occurred anywhere. -/
def calibrate (cfg : OdomConfig) : Nat :=
  (stepSeverities cfg).foldr max 0

/-- No issue occurred anywhere during calibration: every configured inertial
sensor calibrated on the first try and at least one is configured (so the
heading ladder ends in branch a with no exclusions), every configured wheel
initialized, and both axes have at least one wheel. -/
def NoIssues (cfg : OdomConfig) : Prop :=
  (∀ o ∈ cfg.imus, o = ImuOutcome.ok) ∧ cfg.imus ≠ [] ∧
  (∀ w ∈ cfg.verticalWheels, w.initOk = true) ∧
  (∀ w ∈ cfg.horizontalWheels, w.initOk = true) ∧
  cfg.verticalWheels ≠ [] ∧ cfg.horizontalWheels ≠ []

instance (cfg : OdomConfig) : Decidable (NoIssues cfg) := by
  unfold NoIssues; infer_instance

/-- A pose in the fixed global frame, mirroring units::Pose as used by the
estimator: x and y position and heading theta. -/
structure Pose where
  x : ℚ
  y : ℚ
  theta : ℚ
deriving DecidableEq

/-- Modelled from the spec: the per-wheel offset correction of spec 4.3 step
3 inside TrackingWheelOdometry::update, whose body is not under src/:
correctedWheelDelta = rawWheelDelta - offset * headingDelta. -/
def correctedDelta (dθ : ℚ) (wd : TrackingWheel × ℚ) : ℚ :=
  wd.2 - wd.1.offset * dθ

/-- Average of a list of rationals, 0 for the empty list: an axis with no
active wheels contributes zero displacement (spec 4.3 step 3). -/
def avg (l : List ℚ) : ℚ :=
  if l = [] then 0 else l.sum / (l.length : ℚ)

/-- Modelled from the spec: the locally-accumulated chord displacement of
spec 4.3 step 3 inside TrackingWheelOdometry::update, whose body is not
under src/.  Each active wheel is paired with its raw delta for the tick;
the pair (lateral, forward) averages the offset-corrected deltas of the
horizontal and the vertical axis respectively. -/
def localChord (dθ : ℚ) (vert horiz : List (TrackingWheel × ℚ)) : ℚ × ℚ :=
  (avg (horiz.map (correctedDelta dθ)), avg (vert.map (correctedDelta dθ)))

/-- Rotation of a planar vector by the angle whose cosine is c and sine is
s. -/
def rotateBy (c s : ℚ) (v : ℚ × ℚ) : ℚ × ℚ :=
  (c * v.1 - s * v.2, s * v.1 + c * v.2)

/-- Modelled from the spec: the arc correction of spec 4.3 step 4 inside
TrackingWheelOdometry::update, whose body is not under src/.  For a nonzero
heading delta the chord displacement is scaled by 2*sn(dθ/2)/dθ and rotated
by dθ/2; for a heading delta that is numerically zero the uncorrected chord
is used directly, so no division by the heading delta occurs. -/
def arcCorrect (sn cs : ℚ → ℚ) (dθ : ℚ) (chord : ℚ × ℚ) : ℚ × ℚ :=
  if dθ = 0 then chord
  else
    let k := 2 * sn (dθ / 2) / dθ
    let r := rotateBy (cs (dθ / 2)) (sn (dθ / 2)) chord
    (k * r.1, k * r.2)

/-- Modelled from the spec: the projection into the global frame of spec 4.3
step 5.  The local vector is (lateral, forward); headings are compass-style,
so at heading 0 local-forward displacement adds to global y and
local-lateral displacement adds to global x. -/
def toGlobal (sn cs : ℚ → ℚ) (θ : ℚ) (d : ℚ × ℚ) : ℚ × ℚ :=
  (d.2 * sn θ + d.1 * cs θ, d.2 * cs θ - d.1 * sn θ)

/-- Modelled from the spec: one tick of the fusion update loop, spec 4.3
steps 3-5 of TrackingWheelOdometry::update, whose body is not under src/.
The chord displacement from the paired wheel deltas is arc-corrected, then
rotated by the heading at the start of the tick and added to the pose;
the heading delta is added to theta. -/
def tick (sn cs : ℚ → ℚ) (p : Pose) (dθ : ℚ) (vert horiz : List (TrackingWheel × ℚ)) : Pose :=
  let chord := localChord dθ vert horiz
  let arc := arcCorrect sn cs dθ chord
  let g := toGlobal sn cs p.theta arc
  { x := p.x + g.1, y := p.y + g.2, theta := p.theta + dθ }

/-- The estimator's state: the sensor configuration, the pose store, and the
last observed cumulative reading of each wheel (spec 4.3 step 6). -/
structure OdomState where
  config : OdomConfig
  pose : Pose
  lastVertical : List ℚ
  lastHorizontal : List ℚ

/-- Modelled from the spec: TrackingWheelOdometry::getPose, whose body is not
under src/.  Spec 4.4: returns a consistent snapshot of the current pose. -/
def getPoseState (s : OdomState) : Pose := s.pose

/-- Modelled from the spec: TrackingWheelOdometry::setPose, whose body is not
under src/.  Spec 4.4: replaces the stored pose. -/
def setPoseState (s : OdomState) (p : Pose) : OdomState :=
  { s with pose := p }

/-- Modelled from the spec: one full iteration of TrackingWheelOdometry's
update loop at the state level, spec 4.3 steps 1-6.  Raw deltas are the new
cumulative readings minus the last observed readings; the pose is advanced
by one tick and the last observed readings are updated. -/
def updateState (sn cs : ℚ → ℚ) (s : OdomState) (newV newH : List ℚ) (dθ : ℚ) : OdomState :=
  let dV := List.zipWith (fun n l => n - l) newV s.lastVertical
  let dH := List.zipWith (fun n l => n - l) newH s.lastHorizontal
  { s with
    pose := tick sn cs s.pose dθ ((activeWheels s.config.verticalWheels).zip dV)
      ((activeWheels s.config.horizontalWheels).zip dH),
    lastVertical := newV,
    lastHorizontal := newH }

lemma wheelStepSeverity_le (ws : List WheelSetup) : wheelStepSeverity ws ≤ 2 := by
  unfold wheelStepSeverity; split <;> omega

lemma imuStepSeverity_le (l : List ImuOutcome) : imuStepSeverity l ≤ 1 := by
  unfold imuStepSeverity; split <;> omega

lemma headingStepSeverity_le (cfg : OdomConfig) : headingStepSeverity cfg ≤ 5 := by
  unfold headingStepSeverity
  rcases hs : selectHeadingSource cfg with n | ⟨a, b⟩ | _ <;> simp only [hs]
  · split <;> omega
  · omega
  · omega

lemma axisStepSeverity_le (ws : List WheelSetup) : axisStepSeverity ws ≤ 4 := by
  unfold axisStepSeverity; split <;> omega

lemma foldr_max_le {l : List Nat} {n : Nat} (h : ∀ s ∈ l, s ≤ n) : l.foldr max 0 ≤ n := by
  induction l with
  | nil => exact Nat.zero_le n
  | cons a t ih =>
    simp only [List.foldr_cons]
    exact max_le (h a (List.mem_cons_self a t)) (ih fun s hs => h s (List.mem_cons_of_mem a hs))

lemma le_foldr_max {l : List Nat} {s : Nat} (hs : s ∈ l) : s ≤ l.foldr max 0 := by
  induction l with
  | nil => cases hs
  | cons a t ih =>
    simp only [List.foldr_cons]
    rcases List.mem_cons.1 hs with rfl | h
    · exact le_max_left _ _
    · exact le_trans (ih h) (le_max_right _ _)

lemma foldr_max_eq_zero {l : List Nat} : l.foldr max 0 = 0 ↔ ∀ s ∈ l, s = 0 := by
  induction l with
  | nil => simp
  | cons a t ih =>
    simp only [List.foldr_cons, List.mem_cons]
    rw [Nat.max_eq_zero_iff, ih]
    constructor
    · rintro ⟨ha, ht⟩ s hs
      rcases hs with rfl | hs
      · exact ha
      · exact ht s hs
    · intro h
      exact ⟨h a (Or.inl rfl), fun s hs => h s (Or.inr hs)⟩

lemma calibrate_le_five (cfg : OdomConfig) : calibrate cfg ≤ 5 := by
  apply foldr_max_le
  intro s hs
  have h1 := wheelStepSeverity_le cfg.verticalWheels
  have h2 := wheelStepSeverity_le cfg.horizontalWheels
  have h3 := imuStepSeverity_le cfg.imus
  have h4 := headingStepSeverity_le cfg
  have h5 := axisStepSeverity_le cfg.verticalWheels
  have h6 := axisStepSeverity_le cfg.horizontalWheels
  simp only [stepSeverities, List.mem_cons, List.not_mem_nil, or_false] at hs
  rcases hs with rfl | rfl | rfl | rfl | rfl | rfl <;> omega

/-- Claim C9: constructing a TrackingWheel with a non-positive diameter fails
immediately with an invalid-configuration error, and construction succeeds
exactly when the diameter is positive. -/
theorem trackingWheel_diameter_validation (e : Nat) (d o : ℚ) :
    ((TrackingWheel.create e d o).isSome ↔ 0 < d) ∧
    (d ≤ 0 → TrackingWheel.create e d o = none) := by
  constructor
  · unfold TrackingWheel.create
    split <;> simp_all
  · intro hd
    unfold TrackingWheel.create
    rw [if_neg (not_lt.mpr hd)]

/-- Witness for C9 at concrete inputs: diameter 1 succeeds, diameter 0 is
rejected. -/
theorem trackingWheel_diameter_validation_witness :
    (TrackingWheel.create 0 1 0).isSome = true ∧ TrackingWheel.create 0 0 0 = none :=
  ⟨(trackingWheel_diameter_validation 0 1 0).1.mpr (by norm_num),
   (trackingWheel_diameter_validation 0 0 0).2 le_rfl⟩

/-- Claim C6: setPose followed by getPose, with no fusion tick in between,
returns exactly the pose that was set (round-trip identity of the pose
store). -/
theorem setPose_getPose_roundtrip (s : OdomState) (p : Pose) :
    getPoseState (setPoseState s p) = p := rfl

/-- Claim C10: a wheel's encoder reference, diameter and offset are fixed at
construction (all three members are const in the header) and are preserved
unchanged by every subsequent operation of the estimator: neither a fusion
update nor a pose overwrite modifies the wheel lists, hence no wheel's
geometry. -/
theorem wheel_geometry_immutable (sn cs : ℚ → ℚ) (s : OdomState)
    (newV newH : List ℚ) (dθ : ℚ) (p : Pose) :
    (updateState sn cs s newV newH dθ).config.verticalWheels = s.config.verticalWheels ∧
    (updateState sn cs s newV newH dθ).config.horizontalWheels = s.config.horizontalWheels ∧
    (setPoseState s p).config.verticalWheels = s.config.verticalWheels ∧
    (setPoseState s p).config.horizontalWheels = s.config.horizontalWheels :=
  ⟨rfl, rfl, rfl, rfl⟩

/-- Claim C1: for a tick with nonzero heading delta, the chord displacement
is scaled by 2*sn(dθ/2)/dθ and rotated by dθ/2 (the pair below spells out
the scaled rotation componentwise); for a tick whose heading delta is zero,
the uncorrected chord displacement is used directly, so the division by the
heading delta never happens. -/
theorem arc_correction_formula (sn cs : ℚ → ℚ) (dθ : ℚ) (c : ℚ × ℚ) :
    (dθ ≠ 0 → arcCorrect sn cs dθ c =
      (2 * sn (dθ / 2) / dθ * (cs (dθ / 2) * c.1 - sn (dθ / 2) * c.2),
       2 * sn (dθ / 2) / dθ * (sn (dθ / 2) * c.1 + cs (dθ / 2) * c.2))) ∧
    (dθ = 0 → arcCorrect sn cs dθ c = c) := by
  constructor
  · intro h
    simp [arcCorrect, rotateBy, h]
  · intro h
    simp [arcCorrect, h]

/-- Witness for C1 at concrete inputs: with sine modelled as the identity and
cosine as the constant 1, heading delta 2 yields the scaled rotated chord and
heading delta 0 returns the chord unchanged. -/
theorem arc_correction_formula_witness :
    arcCorrect (fun q => q) (fun _ => 1) 2 (3, 4) = (-1, 7) ∧
    arcCorrect (fun q => q) (fun _ => 1) 0 (3, 4) = (3, 4) := by
  constructor
  · have h := (arc_correction_formula (fun q => q) (fun _ => 1) 2 (3, 4)).1 (by norm_num)
    rw [h]
    norm_num
  · exact (arc_correction_formula (fun q => q) (fun _ => 1) 0 (3, 4)).2 rfl

/-- Claim C5: for a tick with zero heading delta and a single active vertical
wheel reporting delta d, the pose update is exactly (0, d, 0) in the frame of
a robot at heading 0, for every wheel offset: the offset correction term
offset * headingDelta vanishes when the heading delta is zero. -/
theorem zero_heading_single_vertical_tick (sn cs : ℚ → ℚ) (h0 : sn 0 = 0) (h1 : cs 0 = 1)
    (x y d : ℚ) (w : TrackingWheel) :
    tick sn cs { x := x, y := y, theta := 0 } 0 [(w, d)] [] =
      { x := x, y := y + d, theta := 0 } := by
  simp [tick, localChord, arcCorrect, toGlobal, avg, correctedDelta, h0, h1]

/-- Witness for C5 at concrete inputs: a wheel of offset 7 reporting delta 5
moves the pose from (1, 2) to (1, 2 + 5) and leaves the heading at 0. -/
theorem zero_heading_single_vertical_tick_witness :
    tick (fun _ => 0) (fun _ => 1) { x := 1, y := 2, theta := 0 } 0
      [({ encoder := 3, diameter := 2, offset := 7 }, 5)] [] =
      { x := 1, y := 2 + 5, theta := 0 } :=
  zero_heading_single_vertical_tick (fun _ => 0) (fun _ => 1) rfl rfl 1 2 5
    { encoder := 3, diameter := 2, offset := 7 }

lemma firstDiffering_some {w v : TrackingWheel} {l : List TrackingWheel}
    (h : firstDiffering w l = some v) : v.offset ≠ w.offset := by
  induction l with
  | nil => cases h
  | cons u us ih =>
    unfold firstDiffering at h
    by_cases hu : u.offset ≠ w.offset
    · rw [if_pos hu] at h
      cases h
      exact hu
    · rw [if_neg hu] at h
      exact ih h

lemma firstDiffering_none {w : TrackingWheel} {l : List TrackingWheel}
    (h : firstDiffering w l = none) : ∀ v ∈ l, v.offset = w.offset := by
  induction l with
  | nil =>
    intro v hv
    cases hv
  | cons u us ih =>
    unfold firstDiffering at h
    by_cases hu : u.offset ≠ w.offset
    · rw [if_pos hu] at h
      cases h
    · rw [if_neg hu] at h
      intro v hv
      rcases List.mem_cons.1 hv with rfl | hv'
      · exact not_not.mp hu
      · exact ih h v hv'

lemma pickDifferingPair_of_exists {l : List TrackingWheel}
    (h : ∃ a ∈ l, ∃ b ∈ l, a.offset ≠ b.offset) :
    ∃ a b, pickDifferingPair l = some (a, b) ∧ a.offset ≠ b.offset := by
  induction l with
  | nil =>
    rcases h with ⟨a, ha, _⟩
    cases ha
  | cons w ws ih =>
    rcases hf : firstDiffering w ws with _ | v
    · have hall := firstDiffering_none hf
      rcases h with ⟨a, ha, b, hb, hab⟩
      rcases List.mem_cons.1 ha with rfl | ha'
      · rcases List.mem_cons.1 hb with rfl | hb'
        · exact absurd rfl hab
        · exact absurd (hall b hb').symm hab
      · rcases List.mem_cons.1 hb with rfl | hb'
        · exact absurd (hall a ha') hab
        · rcases ih ⟨a, ha', b, hb', hab⟩ with ⟨p, q, hpq, hne⟩
          refine ⟨p, q, ?_, hne⟩
          unfold pickDifferingPair
          rw [hf]
          exact hpq
    · refine ⟨w, v, ?_, (firstDiffering_some hf).symm⟩
      unfold pickDifferingPair
      rw [hf]

lemma headingStepSeverity_imuAverage {cfg : OdomConfig} {n : Nat}
    (h : selectHeadingSource cfg = HeadingSource.imuAverage n) :
    headingStepSeverity cfg = if ImuOutcome.failed ∈ cfg.imus then 2 else 0 := by
  unfold headingStepSeverity
  rw [h]

lemma headingStepSeverity_pair {cfg : OdomConfig} {a b : TrackingWheel}
    (h : selectHeadingSource cfg = HeadingSource.horizontalPair a b) :
    headingStepSeverity cfg = 3 := by
  unfold headingStepSeverity
  rw [h]

lemma headingStepSeverity_untrackable {cfg : OdomConfig}
    (h : selectHeadingSource cfg = HeadingSource.untrackable) :
    headingStepSeverity cfg = 5 := by
  unfold headingStepSeverity
  rw [h]

/-- Claim C4: with no active vertical wheel, every tick's chord displacement
has zero local-forward component, calibration reports severity at least 4,
and exactly 5 when the heading is also untrackable. -/
theorem no_vertical_axis_degradation (cfg : OdomConfig)
    (h : activeWheels cfg.verticalWheels = []) :
    (∀ (dθ : ℚ) (ds : List ℚ) (horiz : List (TrackingWheel × ℚ)),
      (localChord dθ ((activeWheels cfg.verticalWheels).zip ds) horiz).2 = 0) ∧
    4 ≤ calibrate cfg ∧
    (selectHeadingSource cfg = HeadingSource.untrackable → calibrate cfg = 5) := by
  refine ⟨?_, ?_, ?_⟩
  · intro dθ ds horiz
    simp [localChord, h, avg]
  · have h4 : axisStepSeverity cfg.verticalWheels = 4 := by
      unfold axisStepSeverity
      rw [if_pos h]
    have hge : axisStepSeverity cfg.verticalWheels ≤ calibrate cfg :=
      le_foldr_max (by simp [stepSeverities])
    omega
  · intro hu
    have h5 : headingStepSeverity cfg = 5 := headingStepSeverity_untrackable hu
    have hge : headingStepSeverity cfg ≤ calibrate cfg :=
      le_foldr_max (by simp [stepSeverities])
    have hle := calibrate_le_five cfg
    omega

/-- A configuration with no inertial sensor, no vertical wheel and a lone
horizontal wheel: both the local-forward axis and the heading are
untrackable. -/
def cfgNoVertical : OdomConfig :=
  { imus := [],
    verticalWheels := [],
    horizontalWheels := [{ wheel := { encoder := 0, diameter := 2, offset := 1 }, initOk := true }] }

/-- Witness for C4 at a concrete configuration whose heading is also
untrackable: calibration reports severity exactly 5. -/
theorem no_vertical_axis_degradation_witness : calibrate cfgNoVertical = 5 :=
  (no_vertical_axis_degradation cfgNoVertical (by decide)).2.2 (by decide)

/-- A configuration with no inertial sensor and two active horizontal wheels
with differing offsets, but no vertical wheel. -/
def cfgHorizontalOnly : OdomConfig :=
  { imus := [],
    verticalWheels := [],
    horizontalWheels :=
      [{ wheel := { encoder := 0, diameter := 2, offset := 1 }, initOk := true },
       { wheel := { encoder := 1, diameter := 2, offset := 3 }, initOk := true }] }

/-- Counterexample to C3 as stated: this configuration has zero inertial
sensors and two active horizontal wheels whose offsets differ, yet calibrate
returns 4 (the untrackable local-forward axis dominates), not 3. -/
theorem horizontal_differential_heading_counterexample :
    cfgHorizontalOnly.imus = [] ∧
    (∃ a ∈ activeWheels cfgHorizontalOnly.horizontalWheels,
      ∃ b ∈ activeWheels cfgHorizontalOnly.horizontalWheels, a.offset ≠ b.offset) ∧
    calibrate cfgHorizontalOnly ≠ 3 ∧ calibrate cfgHorizontalOnly = 4 := by
  decide

/-- Claim C3 as amended: for a configuration with zero inertial sensors, at
least two active horizontal wheels with differing offsets, and at least one
active vertical wheel, calibrate returns severity 3 and the heading source is
a horizontal-wheel pair with differing offsets. -/
theorem horizontal_differential_heading (cfg : OdomConfig)
    (h1 : cfg.imus = [])
    (h2 : ∃ a ∈ activeWheels cfg.horizontalWheels,
      ∃ b ∈ activeWheels cfg.horizontalWheels, a.offset ≠ b.offset)
    (h3 : activeWheels cfg.verticalWheels ≠ []) :
    calibrate cfg = 3 ∧
    ∃ a b, selectHeadingSource cfg = HeadingSource.horizontalPair a b ∧ a.offset ≠ b.offset := by
  rcases pickDifferingPair_of_exists h2 with ⟨a, b, hpq, hne⟩
  have hcount : imuCalibratedCount cfg.imus = 0 := by
    rw [h1]
    rfl
  have hsel : selectHeadingSource cfg = HeadingSource.horizontalPair a b := by
    unfold selectHeadingSource
    rw [if_neg (by omega)]
    rw [hpq]
  have hhead : headingStepSeverity cfg = 3 := headingStepSeverity_pair hsel
  refine ⟨le_antisymm ?_ ?_, a, b, hsel, hne⟩
  · apply foldr_max_le
    intro s hs
    have hb1 := wheelStepSeverity_le cfg.verticalWheels
    have hb2 := wheelStepSeverity_le cfg.horizontalWheels
    have hi : imuStepSeverity cfg.imus = 0 := by
      rw [h1]
      rfl
    have haV : axisStepSeverity cfg.verticalWheels = 0 := by
      unfold axisStepSeverity
      rw [if_neg h3]
    have haH : axisStepSeverity cfg.horizontalWheels = 0 := by
      unfold axisStepSeverity
      rcases h2 with ⟨x, hx, _⟩
      rw [if_neg (List.ne_nil_of_mem hx)]
    simp only [stepSeverities, List.mem_cons, List.not_mem_nil, or_false] at hs
    rcases hs with rfl | rfl | rfl | rfl | rfl | rfl <;> omega
  · rw [← hhead]
    exact le_foldr_max (by simp [stepSeverities])

/-- The counterexample configuration completed with one vertical wheel: every
hypothesis of the amended C3 holds. -/
def cfgHorizontalHeading : OdomConfig :=
  { imus := [],
    verticalWheels := [{ wheel := { encoder := 0, diameter := 2, offset := 0 }, initOk := true }],
    horizontalWheels :=
      [{ wheel := { encoder := 1, diameter := 2, offset := 1 }, initOk := true },
       { wheel := { encoder := 2, diameter := 2, offset := 3 }, initOk := true }] }

/-- Witness for the amended C3 at a concrete configuration: calibrate returns
exactly 3. -/
theorem horizontal_differential_heading_witness : calibrate cfgHorizontalHeading = 3 :=
  (horizontal_differential_heading cfgHorizontalHeading rfl (by decide) (by decide)).1

/-- Claim C2: every calibration attempt yields a severity code in 0..5 that
is the maximum of the severities recorded by the calibration steps (it bounds
every step's severity from above), and the code is 0 exactly when no issues
occurred anywhere during calibration. -/
theorem calibrate_severity_range (cfg : OdomConfig) :
    calibrate cfg ≤ 5 ∧
    (∀ s ∈ stepSeverities cfg, s ≤ calibrate cfg) ∧
    (calibrate cfg = 0 ↔ NoIssues cfg) := by
  refine ⟨calibrate_le_five cfg, fun s hs => le_foldr_max hs, ?_, ?_⟩
  · intro h0
    have hall : ∀ s ∈ stepSeverities cfg, s = 0 := foldr_max_eq_zero.mp h0
    have haV : activeWheels cfg.verticalWheels ≠ [] := by
      have ha := hall (axisStepSeverity cfg.verticalWheels) (by simp [stepSeverities])
      intro hc
      unfold axisStepSeverity at ha
      rw [if_pos hc] at ha
      omega
    have haH : activeWheels cfg.horizontalWheels ≠ [] := by
      have ha := hall (axisStepSeverity cfg.horizontalWheels) (by simp [stepSeverities])
      intro hc
      unfold axisStepSeverity at ha
      rw [if_pos hc] at ha
      omega
    have hwV : ∀ w ∈ cfg.verticalWheels, w.initOk = true := by
      have hw0 := hall (wheelStepSeverity cfg.verticalWheels) (by simp [stepSeverities])
      intro w hw
      by_contra hno
      unfold wheelStepSeverity at hw0
      rw [if_pos ⟨⟨w, hw, by simpa using hno⟩, haV⟩] at hw0
      omega
    have hwH : ∀ w ∈ cfg.horizontalWheels, w.initOk = true := by
      have hw0 := hall (wheelStepSeverity cfg.horizontalWheels) (by simp [stepSeverities])
      intro w hw
      by_contra hno
      unfold wheelStepSeverity at hw0
      rw [if_pos ⟨⟨w, hw, by simpa using hno⟩, haH⟩] at hw0
      omega
    have hneV : cfg.verticalWheels ≠ [] := by
      intro hc
      apply haV
      rw [hc]
      rfl
    have hneH : cfg.horizontalWheels ≠ [] := by
      intro hc
      apply haH
      rw [hc]
      rfl
    have hh := hall (headingStepSeverity cfg) (by simp [stepSeverities])
    have hcount : 0 < imuCalibratedCount cfg.imus := by
      by_contra hc
      have hsel : selectHeadingSource cfg =
          match pickDifferingPair (activeWheels cfg.horizontalWheels) with
          | some (a, b) => HeadingSource.horizontalPair a b
          | none => HeadingSource.untrackable := by
        unfold selectHeadingSource
        rw [if_neg hc]
      rcases hp : pickDifferingPair (activeWheels cfg.horizontalWheels) with _ | ⟨a, b⟩
      · rw [hp] at hsel
        rw [headingStepSeverity_untrackable hsel] at hh
        omega
      · rw [hp] at hsel
        rw [headingStepSeverity_pair hsel] at hh
        omega
    have hsel : selectHeadingSource cfg =
        HeadingSource.imuAverage (imuCalibratedCount cfg.imus) := by
      unfold selectHeadingSource
      rw [if_pos hcount]
    have hfail : ImuOutcome.failed ∉ cfg.imus := by
      intro hf
      rw [headingStepSeverity_imuAverage hsel, if_pos hf] at hh
      omega
    have hretry : ImuOutcome.okAfterRetry ∉ cfg.imus := by
      have hi := hall (imuStepSeverity cfg.imus) (by simp [stepSeverities])
      intro hm
      unfold imuStepSeverity at hi
      rw [if_pos hm] at hi
      omega
    have hok : ∀ o ∈ cfg.imus, o = ImuOutcome.ok := by
      intro o ho
      cases o with
      | ok => rfl
      | okAfterRetry => exact absurd ho hretry
      | failed => exact absurd ho hfail
    have hne : cfg.imus ≠ [] := by
      intro hc
      rw [hc] at hcount
      simp [imuCalibratedCount] at hcount
    exact ⟨hok, hne, hwV, hwH, hneV, hneH⟩
  · rintro ⟨hok, hne, hwV, hwH, hneV, hneH⟩
    have hcount : 0 < imuCalibratedCount cfg.imus := by
      rcases List.exists_mem_of_ne_nil cfg.imus hne with ⟨o, ho⟩
      have hmem : o ∈ cfg.imus.filter fun o => decide (o ≠ ImuOutcome.failed) := by
        rw [List.mem_filter]
        refine ⟨ho, ?_⟩
        rw [hok o ho]
        decide
      exact List.length_pos.mpr (List.ne_nil_of_mem hmem)
    have hsel : selectHeadingSource cfg =
        HeadingSource.imuAverage (imuCalibratedCount cfg.imus) := by
      unfold selectHeadingSource
      rw [if_pos hcount]
    have hheadZ : headingStepSeverity cfg = 0 := by
      rw [headingStepSeverity_imuAverage hsel, if_neg]
      intro hf
      have := hok _ hf
      cases this
    have himuZ : imuStepSeverity cfg.imus = 0 := by
      unfold imuStepSeverity
      rw [if_neg]
      intro hm
      have := hok _ hm
      cases this
    have hwheelVZ : wheelStepSeverity cfg.verticalWheels = 0 := by
      unfold wheelStepSeverity
      rw [if_neg]
      rintro ⟨⟨w, hw, hwf⟩, -⟩
      rw [hwV w hw] at hwf
      cases hwf
    have hwheelHZ : wheelStepSeverity cfg.horizontalWheels = 0 := by
      unfold wheelStepSeverity
      rw [if_neg]
      rintro ⟨⟨w, hw, hwf⟩, -⟩
      rw [hwH w hw] at hwf
      cases hwf
    have haxisVZ : axisStepSeverity cfg.verticalWheels = 0 := by
      unfold axisStepSeverity
      rw [if_neg]
      intro hc
      rcases List.exists_mem_of_ne_nil cfg.verticalWheels hneV with ⟨w, hw⟩
      have hmem : w.wheel ∈ activeWheels cfg.verticalWheels :=
        List.mem_map_of_mem _ (List.mem_filter.mpr ⟨hw, hwV w hw⟩)
      rw [hc] at hmem
      cases hmem
    have haxisHZ : axisStepSeverity cfg.horizontalWheels = 0 := by
      unfold axisStepSeverity
      rw [if_neg]
      intro hc
      rcases List.exists_mem_of_ne_nil cfg.horizontalWheels hneH with ⟨w, hw⟩
      have hmem : w.wheel ∈ activeWheels cfg.horizontalWheels :=
        List.mem_map_of_mem _ (List.mem_filter.mpr ⟨hw, hwH w hw⟩)
      rw [hc] at hmem
      cases hmem
    apply foldr_max_eq_zero.mpr
    intro s hs
    simp only [stepSeverities, List.mem_cons, List.not_mem_nil, or_false] at hs
    rcases hs with rfl | rfl | rfl | rfl | rfl | rfl
    exacts [hwheelVZ, hwheelHZ, himuZ, hheadZ, haxisVZ, haxisHZ]

/-- A fully nominal configuration: one inertial sensor that calibrates on the
first try and one initialized wheel per axis. -/
def cfgNominal : OdomConfig :=
  { imus := [ImuOutcome.ok],
    verticalWheels := [{ wheel := { encoder := 0, diameter := 2, offset := 0 }, initOk := true }],
    horizontalWheels := [{ wheel := { encoder := 1, diameter := 2, offset := 1 }, initOk := true }] }

/-- Witness for C2 at a concrete nominal configuration: no issue occurred and
the severity code is 0. -/
theorem calibrate_severity_range_witness :
    NoIssues cfgNominal ∧ calibrate cfgNominal = 0 :=
  ⟨by decide, (calibrate_severity_range cfgNominal).2.2.mpr (by decide)⟩

end LemLib
